import Mathlib

set_option maxRecDepth 10000

namespace OmniBar

/-- Universe of Python values flowing through the snapshot pipeline: agent
outputs, objective metadata and evaluation results are built from `None`,
booleans, numbers, strings, lists and string-keyed mappings.  Python floats
are modelled as exact rationals. -/
inductive PyVal where
  | none
  | bool (b : Bool)
  | int (n : Int)
  | float (q : ℚ)
  | str (s : String)
  | list (xs : List PyVal)
  | dict (kvs : List (String × PyVal))

/-- A Python dict with string keys, in insertion order. -/
abbrev PyDict := List (String × PyVal)

/-- Python truthiness (`bool(v)`): `None`, `False`, zero, the empty string and
empty collections are falsy, everything else is truthy. -/
def pyTruthy : PyVal → Bool
  | .none => false
  | .bool b => b
  | .int n => n ≠ 0
  | .float q => q ≠ 0
  | .str s => s ≠ ""
  | .list xs => ¬ xs.isEmpty
  | .dict kvs => ¬ kvs.isEmpty

/-- `isinstance(v, (int, float))` together with the numeric value: Python
booleans are instances of `int`, so `True` counts as `1` and `False` as `0`. -/
def pyNum : PyVal → Option ℚ
  | .bool b => some (if b then 1 else 0)
  | .int n => some (n : ℚ)
  | .float q => some q
  | _ => Option.none

/-- Models `float(v)` on the numeric values that reach it in the pipeline;
every value the source applies `float` to is numeric. -/
def pyToQ (v : PyVal) : ℚ := (pyNum v).getD 0

/-- First-match lookup in an association list (Python dict lookup: the model
keeps at most one binding per key, maintained by `alSet`). -/
def alGet {α : Type} : List (String × α) → String → Option α
  | [], _ => Option.none
  | (k', v) :: t, k => if k' = k then some v else alGet t k

/-- Python dict assignment `d[k] = v`: update in place when the key exists
(keeping its position, as Python dicts do), otherwise append. -/
def alSet {α : Type} : List (String × α) → String → α → List (String × α)
  | [], k, v => [(k, v)]
  | (k', v') :: t, k, v => if k' = k then (k', v) :: t else (k', v') :: alSet t k v

/-- Python `d.get(k)`: `None` both when the key is absent and when the stored
value is `None`, exactly as the source code's `is None` checks observe it. -/
def pyGet (d : PyDict) (k : String) : PyVal := (alGet d k).getD .none

mutual

/-- Python `==` on modelled values: numbers compare by value across
`int`/`float`/`bool`; strings, lists and mappings compare structurally (the
model keeps mappings in a canonical insertion order). -/
def pyEq : PyVal → PyVal → Bool
  | .none, .none => true
  | .str s, .str t => s = t
  | .list xs, .list ys => pyEqList xs ys
  | .dict xs, .dict ys => pyEqDict xs ys
  | a, b =>
    match pyNum a, pyNum b with
    | some x, some y => x = y
    | _, _ => false

/-- Pointwise Python `==` on lists. -/
def pyEqList : List PyVal → List PyVal → Bool
  | [], [] => true
  | x :: xs, y :: ys => pyEq x y && pyEqList xs ys
  | _, _ => false

/-- Pointwise Python `==` on mappings in canonical order. -/
def pyEqDict : List (String × PyVal) → List (String × PyVal) → Bool
  | [], [] => true
  | (k, v) :: xs, (k', v') :: ys => k = k' && pyEq v v' && pyEqDict xs ys
  | _, _ => false

end

/-- Python `v in collection` for set membership, using Python `==`. -/
def pyMem (v : PyVal) (l : List PyVal) : Bool := l.any (fun w => pyEq v w)

/-- JSON string escaping for one character, as `json.dumps` performs it on the
characters occurring in the pipeline's payloads. -/
def escapeJsonChar (c : Char) : String :=
  if c = '"' then "\\\""
  else if c = '\\' then "\\\\"
  else if c = '\n' then "\\n"
  else if c = '\t' then "\\t"
  else if c = '\r' then "\\r"
  else String.singleton c

mutual

/-- Models `json.dumps` (default separators) on the modelled value universe.
Every modelled value is serializable, so the source's `except TypeError`
fallback to `str()` is unreachable in the model. -/
def encodeJson : PyVal → String
  | .none => "null"
  | .bool b => if b then "true" else "false"
  | .int n => toString n
  | .float q => toString q
  | .str s => "\"" ++ String.join (s.toList.map escapeJsonChar) ++ "\""
  | .list xs => "[" ++ encodeJsonItems xs ++ "]"
  | .dict kvs => "\x7b" ++ encodeJsonPairs kvs ++ "\x7d"

/-- Comma-separated JSON encoding of list items. -/
def encodeJsonItems : List PyVal → String
  | [] => ""
  | [x] => encodeJson x
  | x :: xs => encodeJson x ++ ", " ++ encodeJsonItems xs

/-- Comma-separated JSON encoding of mapping items. -/
def encodeJsonPairs : List (String × PyVal) → String
  | [] => ""
  | [(k, v)] => encodeJson (.str k) ++ ": " ++ encodeJson v
  | (k, v) :: kvs => encodeJson (.str k) ++ ": " ++ encodeJson v ++ ", " ++ encodeJsonPairs kvs

end

mutual

/-- Models Python `str()` on the modelled values, used only to render the
interpolated failure-reason message.  Nested strings are rendered without
quotes; no aggregated field ever inspects the rendered text. -/
def pyStr : PyVal → String
  | .none => "None"
  | .bool b => if b then "True" else "False"
  | .int n => toString n
  | .float q => toString q
  | .str s => s
  | .list xs => "[" ++ pyStrItems xs ++ "]"
  | .dict kvs => "\x7b" ++ pyStrPairs kvs ++ "\x7d"

/-- Comma-separated rendering of list items. -/
def pyStrItems : List PyVal → String
  | [] => ""
  | [x] => pyStr x
  | x :: xs => pyStr x ++ ", " ++ pyStrItems xs

/-- Comma-separated rendering of mapping items. -/
def pyStrPairs : List (String × PyVal) → String
  | [] => ""
  | [(k, v)] => k ++ ": " ++ pyStr v
  | (k, v) :: kvs => k ++ ": " ++ pyStr v ++ ", " ++ pyStrPairs kvs

end

/-- Models `datetime.isoformat()` as an injective textual rendering of the
modelled instant (seconds since an arbitrary epoch). -/
def isoFormat (t : ℚ) : String := toString t

/-- Round-half-to-even on rationals, the rounding mode of Python `round`. -/
def roundHalfEven (q : ℚ) : ℤ :=
  let f := ⌊q⌋
  let r := q - (f : ℚ)
  if r < 1 / 2 then f
  else if 1 / 2 < r then f + 1
  else if f % 2 = 0 then f else f + 1

/-- Python `round(q, n)`. -/
def pyRound (q : ℚ) (n : ℕ) : ℚ :=
  (roundHalfEven (q * (10 : ℚ) ^ n) : ℚ) / (10 : ℚ) ^ n

/-- Insert a string into a sorted list (code-point order). -/
def insertSorted (x : String) : List String → List String
  | [] => [x]
  | y :: ys => if x ≤ y then x :: y :: ys else y :: insertSorted x ys

/-- Models Python `sorted` on the (duplicate-free) string collections the
pipeline sorts; on distinct elements any stable sort agrees with this one. -/
def sortStrings (l : List String) : List String := l.foldr insertSorted []

/-- Python `set.add` on a set modelled as a duplicate-free list. -/
def addFlag (l : List String) (x : String) : List String :=
  if x ∈ l then l else l ++ [x]

/-- Environment-driven configuration the pipeline reads at import time:
`OMNIBAR_OPENAI_COST_PER_1K` and `OMNIBAR_OPENAI_BUDGET_USD`. -/
structure Config where
  costPer1k : ℚ
  budget : ℚ

/-- An evaluation result object (`entry.eval_result`): the `result` payload
and the optional human-readable `message`, both read via `getattr` with a
`None` default. -/
structure EvalResult where
  result : PyVal
  message : PyVal

/-- One evaluation entry of a log (`log.entries[i]`).  The evaluated output is
a structured mapping per the data model; the source's `or \x7b\x7d` guard maps
a missing/empty output to the empty mapping, which this typing absorbs. -/
structure EntryRec where
  eval_result : EvalResult
  evaluated_output : PyDict
  timestamp : Option ℚ

/-- One per-iteration log record produced by the benchmark runner, as consumed
by `compute_results`: benchmark id, start/end instants, objective metadata
mapping and the evaluation entries. -/
structure LogRec where
  benchmark_id : String
  time_started : Option ℚ
  time_ended : Option ℚ
  metadata : PyDict
  entries : List EntryRec

/-- A benchmark definition as registered from `marker.initial_input`. -/
structure BenchmarkDef where
  uuid : String
  name : String
  iterations : ℕ
  input_kwargs : PyDict

/-- Models the `OmniBarmarker` as `compute_results` observes it: its initial
benchmark definitions and the logs its logger returns via `get_all_logs`. -/
structure Marker where
  initialInput : List BenchmarkDef
  logs : List LogRec

/-- A suite run: the suite label paired with its marker. -/
abbrev SuiteRun := String × Marker

/-- The most recent failure detail recorded for a benchmark. -/
structure FailureDetail where
  objective : PyVal
  reason : PyVal
  category : String
  expected : PyVal
  actual : PyVal

/-- One history record in a benchmark accumulator's audit trail. -/
structure HistoryRec where
  timestamp : Option String
  objective : PyVal
  result : Bool
  message : PyVal
  expected : PyVal
  actual : PyVal
  failureCategory : Option String
  latencySeconds : ℚ

/-- The per-benchmark statistics accumulator built by `compute_results`. -/
structure Stats where
  name : String
  iterations : ℕ
  failure_flag : Bool
  suite : String
  latencies : List ℚ
  token_counts : List ℚ
  costs : List ℚ
  usage_call_ids : List PyVal
  confidences : List ℚ
  history : List HistoryRec
  error_flags : List String
  inputs : PyDict
  latest_failure : Option FailureDetail

/-- `actual_value in (None, "", \x7b\x7d, [])`: the emptiness test of the
failure classifier.  Python equality against those four literals holds exactly
for `None`, the empty string, the empty mapping and the empty list. -/
def isEmptyLike (v : PyVal) : Bool :=
  match v with
  | .none => true
  | .str s => s = ""
  | .dict kvs => kvs.isEmpty
  | .list xs => xs.isEmpty
  | _ => false

/-- Models Python `str.lower()` on the ASCII strings the classifier
compares (a kernel-computable rendering of `String.toLower`). -/
def strToLower (s : String) : String := String.mk (s.data.map Char.toLower)

/-- The failure classifier of `compute_results` (lines 1199-1204): emptiness
yields `format`, a known-bad literal string (case-insensitive `error`,
`unsupported`, `not_found`) yields `unsupported`, anything else `logic`. -/
def classifyFailure (v : PyVal) : String :=
  if isEmptyLike v then "format"
  else
    match v with
    | .str s =>
      if strToLower s = "error" ∨ strToLower s = "unsupported" ∨ strToLower s = "not_found" then
        "unsupported"
      else "logic"
    | _ => "logic"

/-- `evaluated_output.get(output_key) if output_key else None` (line 1190):
a falsy output key yields `None`; a non-string truthy key misses every
string-keyed mapping. -/
def actualValue (output_key : PyVal) (evaluated_output : PyDict) : PyVal :=
  if pyTruthy output_key then
    match output_key with
    | .str k => pyGet evaluated_output k
    | _ => .none
  else .none

/-- The `total_tokens` extraction of the usage block (lines 1155-1162): the
explicit `total_tokens` entry when present, else the sum of numeric
`prompt_tokens` and `completion_tokens`, else `None`. -/
def extractTotalTokens (usage : PyVal) : PyVal :=
  match usage with
  | .dict d =>
    match pyGet d "total_tokens" with
    | .none =>
      match pyNum (pyGet d "prompt_tokens"), pyNum (pyGet d "completion_tokens") with
      | some p, some c => .float (p + c)
      | _, _ => .none
    | v => v
  | _ => .none

/-- `max(len(json.dumps(evaluated_output)) // 4, 1)` (lines 1179-1182): the
rough token estimate used when no usage block was charged for the entry. -/
def jsonTokenEstimate (evaluated_output : PyDict) : ℚ :=
  ((max ((encodeJson (.dict evaluated_output)).length / 4) 1 : ℕ) : ℚ)

/-- `samples[-1]`: the most recently appended sample; call sites guard
non-emptiness. -/
def lastSample (l : List ℚ) : ℚ := l.getLastD 0

/-- The usage/cost deduplication block of `compute_results` (lines 1152-1173):
when the entry carries a truthy, not-yet-seen call identity, record it and
append the usage-derived token sample and either the provided or the derived
cost sample.  Returns the updated stats with the `token_added` and
`cost_added` flags. -/
def usageStep (cfg : Config) (stats : Stats) (call_id usage cost_usd : PyVal) :
    Stats × Bool × Bool :=
  if pyTruthy call_id && !(pyMem call_id stats.usage_call_ids) then
    let s := { stats with usage_call_ids := stats.usage_call_ids ++ [call_id] }
    let p2 : Stats × Bool :=
      match extractTotalTokens usage with
      | .none => (s, false)
      | v => ({ s with token_counts := s.token_counts ++ [pyToQ v] }, true)
    let s := p2.1
    let token_added := p2.2
    let p3 : Stats × Bool :=
      match cost_usd with
      | .none =>
        if token_added && !s.token_counts.isEmpty then
          ({ s with costs := s.costs ++ [lastSample s.token_counts / 1000 * cfg.costPer1k] }, true)
        else (s, false)
      | v => ({ s with costs := s.costs ++ [pyToQ v] }, true)
    (p3.1, token_added, p3.2)
  else (stats, false, false)

/-- The `if evaluated_output:` block of `compute_results` (lines 1175-1188):
for a non-empty evaluated output, append the JSON-length token estimate when
no token sample was added, a derived cost sample when no cost sample was
added, and the numeric `confidence` field when present. -/
def estimateStep (cfg : Config) (stats : Stats) (evaluated_output : PyDict)
    (token_added cost_added : Bool) : Stats × Bool × Bool :=
  if !evaluated_output.isEmpty then
    let p1 : Stats × Bool :=
      if !token_added then
        ({ stats with token_counts := stats.token_counts ++ [jsonTokenEstimate evaluated_output] }, true)
      else (stats, token_added)
    let s := p1.1
    let token_added' := p1.2
    let p2 : Stats × Bool :=
      if !cost_added && token_added' && !s.token_counts.isEmpty then
        ({ s with costs := s.costs ++ [lastSample s.token_counts / 1000 * cfg.costPer1k] }, true)
      else (s, cost_added)
    let s := p2.1
    let s :=
      match pyNum (pyGet evaluated_output "confidence") with
      | some q => { s with confidences := s.confidences ++ [q] }
      | Option.none => s
    (s, token_added', p2.2)
  else (stats, token_added, cost_added)

/-- The failure-recording block of `compute_results` (lines 1192-1216): on a
non-passing result, set the failure flag, classify the failure, accumulate the
error flag and record the latest failure.  Returns the stats together with the
failure category stored in the history record. -/
def failureStep (stats : Stats) (success : Bool) (message objective_name expected_goal : PyVal)
    (actual_value : PyVal) : Stats × Option String :=
  if !success then
    let failure_category := classifyFailure actual_value
    let failure_reason : PyVal :=
      if pyTruthy message then message
      else
        .str (match expected_goal with
          | .none => "Objective failed"
          | g => "Expected " ++ pyStr g ++ ", got " ++ pyStr actual_value)
    ({ stats with
        failure_flag := true,
        error_flags := addFlag stats.error_flags failure_category,
        latest_failure := some
          { objective := objective_name, reason := failure_reason,
            category := failure_category, expected := expected_goal,
            actual := actual_value } },
      some failure_category)
  else (stats, Option.none)

/-- Folding one evaluation entry into a benchmark accumulator: the body of the
`for entry in log.entries` loop of `compute_results` (lines 1139-1229). -/
def foldEntry (cfg : Config) (objective_name output_key expected_goal : PyVal) (latency : ℚ)
    (stats : Stats) (entry : EntryRec) : Stats :=
  let success := pyTruthy entry.eval_result.result
  let message := entry.eval_result.message
  let evaluated_output := entry.evaluated_output
  let call_id := pyGet evaluated_output "call_id"
  let usage := pyGet evaluated_output "usage"
  let cost_usd := pyGet evaluated_output "cost_usd"
  let u := usageStep cfg stats call_id usage cost_usd
  let e := estimateStep cfg u.1 evaluated_output u.2.1 u.2.2
  let actual := actualValue output_key evaluated_output
  let f := failureStep e.1 success message objective_name expected_goal actual
  { f.1 with
      history := f.1.history ++ [{
        timestamp := entry.timestamp.map isoFormat,
        objective := objective_name, result := success, message := message,
        expected := expected_goal, actual := actual,
        failureCategory := f.2, latencySeconds := latency }] }

/-- The synthetic history record appended for a log with no evaluation
entries (lines 1125-1136). -/
def syntheticRecord (log : LogRec) (objective_name expected_goal : PyVal) (latency : ℚ) :
    HistoryRec :=
  { timestamp := log.time_started.map isoFormat,
    objective := objective_name, result := false,
    message := .str "No evaluator entries recorded",
    expected := expected_goal, actual := .none,
    failureCategory := some "infrastructure",
    latencySeconds := latency }

/-- `(log.time_ended - log.time_started).total_seconds()` when both instants
are present, else `0.0` (line 1116). -/
def logLatency (log : LogRec) : ℚ :=
  match log.time_ended, log.time_started with
  | some e, some s => e - s
  | _, _ => 0

/-- Folding one log record into a benchmark accumulator: the body of the
`for log in marker.logger.get_all_logs()` loop (lines 1116-1229). -/
def foldLog (cfg : Config) (stats : Stats) (log : LogRec) : Stats :=
  let latency := logLatency log
  let stats := { stats with latencies := stats.latencies ++ [latency] }
  let objective_name := pyGet log.metadata "objective_name"
  let output_key := pyGet log.metadata "objective_output_key"
  let expected_goal := pyGet log.metadata "objective_goal"
  if log.entries.isEmpty then
    { stats with
        failure_flag := true,
        history := stats.history ++ [syntheticRecord log objective_name expected_goal latency] }
  else
    log.entries.foldl (foldEntry cfg objective_name output_key expected_goal latency) stats

/-- The fresh accumulator registered for a benchmark definition
(lines 1094-1109). -/
def initStats (suiteName : String) (b : BenchmarkDef) : Stats :=
  { name := b.name, iterations := b.iterations, failure_flag := false,
    suite := suiteName, latencies := [], token_counts := [], costs := [],
    usage_call_ids := [], confidences := [], history := [], error_flags := [],
    inputs := b.input_kwargs, latest_failure := Option.none }

/-- Processing one log against the aggregated map: skip it when its benchmark
id is unknown, otherwise fold it into the matching accumulator
(lines 1111-1114). -/
def logStep (cfg : Config) (agg : List (String × Stats)) (log : LogRec) :
    List (String × Stats) :=
  match alGet agg log.benchmark_id with
  | Option.none => agg
  | some stats => alSet agg log.benchmark_id (foldLog cfg stats log)

/-- The registration loop of one suite run: seed a fresh accumulator for
every benchmark definition (lines 1094-1109). -/
def regPhase (suiteName : String) (agg : List (String × Stats)) (bs : List BenchmarkDef) :
    List (String × Stats) :=
  bs.foldl (fun a b => alSet a b.uuid (initStats suiteName b)) agg

/-- The log-folding loop of one suite run (lines 1111-1229). -/
def logPhase (cfg : Config) (agg : List (String × Stats)) (logs : List LogRec) :
    List (String × Stats) :=
  logs.foldl (logStep cfg) agg

/-- Processing one suite run: register every benchmark's fresh accumulator,
then fold every log of the marker (lines 1093-1229). -/
def markerStep (cfg : Config) (agg : List (String × Stats)) (run : SuiteRun) :
    List (String × Stats) :=
  logPhase cfg (regPhase run.1 agg run.2.initialInput) run.2.logs

/-- `compute_results(suites)`: the aggregated per-benchmark statistics map, in
registration order (lines 1090-1231). -/
def computeResults (cfg : Config) (suites : List SuiteRun) : List (String × Stats) :=
  suites.foldl (markerStep cfg) []

/-- One spend event recorded by the usage/cost tracker. -/
structure SpendEvent where
  timestamp : String
  source : String
  detail : String
  tokens : Option ℚ
  cost_usd : ℚ
deriving DecidableEq

/-- The persisted spend-tracker state (`backend/data/openai_spend.json`). -/
structure SpendTracker where
  total_spend_usd : ℚ
  events : List SpendEvent
  budget_usd : ℚ
  remaining_budget_usd : Option ℚ
deriving DecidableEq

/-- `SPEND_EVENT_LIMIT` (line 41). -/
def spendEventLimit : ℕ := 200

/-- `_load_spend_tracker` (lines 77-105): a missing (or unreadable) file
yields the zero tracker; otherwise the stored state with the budget fields
recomputed from the configured budget.  The `setdefault` calls are inherent in
the typed state. -/
def loadSpendTracker (cfg : Config) (file : Option SpendTracker) : SpendTracker :=
  match file with
  | Option.none =>
    { total_spend_usd := 0, events := [], budget_usd := cfg.budget,
      remaining_budget_usd := if cfg.budget > 0 then some cfg.budget else Option.none }
  | some d =>
    { d with budget_usd := cfg.budget,
             remaining_budget_usd :=
               if cfg.budget > 0 then some (max (cfg.budget - d.total_spend_usd) 0)
               else Option.none }

/-- `_store_spend_tracker` (lines 108-120): normalize the budget fields and
write; the result is the new persisted file content (the source mutates the
tracker dict in place before dumping it). -/
def storeSpendTracker (cfg : Config) (t : SpendTracker) : SpendTracker :=
  { t with budget_usd := cfg.budget,
           remaining_budget_usd :=
             if cfg.budget > 0 then some (max (cfg.budget - t.total_spend_usd) 0)
             else Option.none }

/-- The snapshot `_record_usage_cost` returns when a cost was determined. -/
structure SpendSnapshot where
  cost_usd : ℚ
  total_spend_usd : ℚ
  remaining_budget_usd : Option ℚ
deriving DecidableEq

/-- The warning-level observability events `_record_usage_cost` can emit
(lines 159-171). -/
inductive BudgetWarning where
  | reachedBudget
  | at80Percent
deriving DecidableEq

/-- The observable outcome of one `_record_usage_cost` call: the persisted
file state after the call, the returned snapshot, and the warnings logged. -/
structure RecordOutcome where
  file : Option SpendTracker
  snapshot : Option SpendSnapshot
  warnings : List BudgetWarning
deriving DecidableEq

/-- `_record_usage_cost` (lines 123-177).  With neither tokens nor an
override it returns `None` before touching the tracker; otherwise it computes
the cost, adds it to the running total, prepends a capped event, persists the
tracker, logs the budget warnings and returns the snapshot. -/
def recordUsageCost (cfg : Config) (file : Option SpendTracker)
    (now source detail : String) (total_tokens : Option ℚ)
    (cost_override_usd : Option ℚ) : RecordOutcome :=
  match cost_override_usd, total_tokens with
  | Option.none, Option.none => { file := file, snapshot := Option.none, warnings := [] }
  | cov, tok =>
    let cost_usd : ℚ :=
      match cov with
      | some c => c
      | Option.none => tok.getD 0 / 1000 * cfg.costPer1k
    let tracker := loadSpendTracker cfg file
    let tracker := { tracker with total_spend_usd := tracker.total_spend_usd + cost_usd }
    let events := { timestamp := now, source := source, detail := detail,
                    tokens := total_tokens, cost_usd := pyRound cost_usd 6 : SpendEvent }
                  :: tracker.events
    let events := if events.length > spendEventLimit then events.take spendEventLimit else events
    let tracker := { tracker with events := events }
    let tracker := storeSpendTracker cfg tracker
    let total_spend := tracker.total_spend_usd
    let remaining := tracker.remaining_budget_usd
    let warnings : List BudgetWarning :=
      if cfg.budget > 0 then
        if total_spend ≥ cfg.budget then [.reachedBudget]
        else if total_spend ≥ 8 / 10 * cfg.budget then [.at80Percent]
        else []
      else []
    { file := some tracker,
      snapshot := some
        { cost_usd := pyRound cost_usd 6,
          total_spend_usd := pyRound total_spend 6,
          remaining_budget_usd := remaining.map (fun r => pyRound r 6) },
      warnings := warnings }

/-- One benchmark of the API payload (lines 1240-1287). -/
structure BenchPayload where
  id : String
  name : String
  iterations : ℕ
  successRate : ℚ
  status : String
  updatedAt : String
  suite : String
  latencySeconds : ℚ
  tokensUsed : ℚ
  costUsd : ℚ
  confidenceReported : Option ℚ
  confidenceCalibrated : ℚ
  errorFlags : List String
  history : List HistoryRec
  inputs : PyDict
  latestFailure : Option FailureDetail

/-- The suite-level summary counts (line 1238 and the loop increments). -/
structure Summary where
  total : ℕ
  success : ℕ
  failed : ℕ
  costUsd : ℚ

/-- One failure-insight record (lines 1296-1312). -/
structure FailureInsight where
  id : String
  benchmarkId : String
  benchmarkName : String
  failureRate : ℚ
  lastFailureAt : String
  topIssues : List PyVal
  recommendedFix : String
  failureCategory : Option String
  inputs : PyDict
  history : List HistoryRec

/-- One remediation record (lines 1313-1321). -/
structure Remediation where
  id : String
  title : String
  impact : String
  summary : PyVal
  action : String

/-- The `openaiSpend` block of the payload (lines 1332-1341). -/
structure OpenAISpendBlock where
  totalUsd : ℚ
  budgetUsd : ℚ
  remainingUsd : Option ℚ
  lastEvent : Option SpendEvent

/-- The full API payload (lines 1323-1343). -/
structure SuitePayload where
  generatedAt : String
  summary : Summary
  benchmarks : List BenchPayload
  liveRuns : List PyVal
  failureInsights : List FailureInsight
  recommendations : List Remediation
  openaiSpend : Option OpenAISpendBlock

/-- Deriving one payload benchmark from its accumulator (lines 1240-1287):
all-or-nothing success rate, guarded arithmetic means, rounded display
values.  `now` stands for the wall-clock instant `datetime.now(UTC)`. -/
def mkBenchPayload (cfg : Config) (now : String) (benchmark_id : String) (data : Stats) :
    BenchPayload :=
  let total := data.iterations
  let failure_flag := data.failure_flag
  let success_count : ℕ := if failure_flag then 0 else total
  let success_rate : ℚ := if total ≠ 0 then (success_count : ℚ) / (total : ℚ) else 0
  let status := if failure_flag then "failed" else "success"
  let latencies := data.latencies
  let token_counts := data.token_counts
  let cost_samples := data.costs
  let avg_latency : ℚ := if !latencies.isEmpty then latencies.sum / latencies.length else 0
  let avg_tokens : ℚ := if !token_counts.isEmpty then token_counts.sum / token_counts.length else 0
  let avg_cost : ℚ :=
    if !cost_samples.isEmpty then cost_samples.sum / cost_samples.length
    else avg_tokens / 1000 * cfg.costPer1k
  let cost_usd := pyRound avg_cost 6
  let avg_confidence : Option ℚ :=
    if !data.confidences.isEmpty then some (data.confidences.sum / data.confidences.length)
    else Option.none
  { id := benchmark_id, name := data.name, iterations := total,
    successRate := pyRound success_rate 2, status := status, updatedAt := now,
    suite := data.suite, latencySeconds := pyRound avg_latency 3,
    tokensUsed := pyRound avg_tokens 2, costUsd := cost_usd,
    confidenceReported := avg_confidence.map (fun c => pyRound c 3),
    confidenceCalibrated := pyRound success_rate 3,
    errorFlags := sortStrings data.error_flags, history := data.history,
    inputs := data.inputs, latestFailure := data.latest_failure }

/-- The summary counters accumulated over the benchmarks payload in iteration
order (lines 1238, 1247-1249, 1259). -/
def mkSummary (bs : List BenchPayload) : Summary :=
  bs.foldl
    (fun s b =>
      { total := s.total + 1,
        success := s.success + (if b.status = "success" then 1 else 0),
        failed := s.failed + (if b.status = "failed" then 1 else 0),
        costUsd := s.costUsd + b.costUsd })
    { total := 0, success := 0, failed := 0, costUsd := 0 }

/-- `latest_failure.get("reason", default)` over `latestFailure or \x7b\x7d`. -/
def latestReason (lf : Option FailureDetail) (default : String) : PyVal :=
  match lf with
  | some f => f.reason
  | Option.none => .str default

/-- One failure-insight record for a non-successful benchmark
(lines 1296-1312). -/
def mkInsight (now : String) (b : BenchPayload) : FailureInsight :=
  { id := "issue-" ++ b.id.take 8, benchmarkId := b.id, benchmarkName := b.name,
    failureRate := 1 - b.successRate, lastFailureAt := now,
    topIssues := [latestReason b.latestFailure "Mismatch between expected and actual outputs.",
                  .str "Agent requires regression coverage for this flow."],
    recommendedFix := "Tighten validation and adjust prompt/tool usage for this scenario.",
    failureCategory := b.latestFailure.map (fun f => f.category),
    inputs := b.inputs, history := b.history }

/-- One remediation record for a non-successful benchmark (lines 1313-1321). -/
def mkRemediation (b : BenchPayload) : Remediation :=
  { id := "rec-" ++ b.id.take 8, title := "Restore " ++ b.name,
    impact := "High impact · Medium effort",
    summary := latestReason b.latestFailure "Failures in this scenario affect reliability scorecards.",
    action := "Add OmniBAR regression test and rerun after fixing agent logic." }

/-- `build_api_payload(suites)` (lines 1234-1343).  `now` models the wall
clock and `spendFile` the persisted spend-tracker file; the loaded tracker
dict is never empty, so the `openaiSpend` block is always attached. -/
def buildApiPayload (cfg : Config) (suites : List SuiteRun) (now : String)
    (spendFile : Option SpendTracker) : SuitePayload :=
  let results := computeResults cfg suites
  let benchmarks := results.map (fun p => mkBenchPayload cfg now p.1 p.2)
  let summary := mkSummary benchmarks
  let failing := benchmarks.filter (fun b => b.status ≠ "success")
  let spend := loadSpendTracker cfg spendFile
  { generatedAt := now, summary := summary, benchmarks := benchmarks,
    liveRuns := [],
    failureInsights := failing.map (mkInsight now),
    recommendations := failing.map mkRemediation,
    openaiSpend := some
      { totalUsd := pyRound spend.total_spend_usd 6,
        budgetUsd := spend.budget_usd,
        remainingUsd := spend.remaining_budget_usd,
        lastEvent := spend.events.head? } }

/-- Specification-side predicate: a log records a failure when it carries no
evaluation entries (invocation failure) or some entry evaluated falsy. -/
def logHasFailure (log : LogRec) : Bool :=
  log.entries.isEmpty || log.entries.any (fun e => !pyTruthy e.eval_result.result)

/-- Specification-side view: the logs of a marker that match one benchmark
id (the logs folded into that benchmark's accumulator). -/
def logsFor (m : Marker) (u : String) : List LogRec :=
  m.logs.filter (fun log => log.benchmark_id = u)

/-- All benchmark uuids registered across the suite runs, in order. -/
def allUuids : List SuiteRun → List String
  | [] => []
  | r :: t => r.2.initialInput.map (fun b => b.uuid) ++ allUuids t

/-- Each marker's logger only reports logs for that marker's own benchmarks,
as the benchmark runner produces them. -/
def ownMarker (suites : List SuiteRun) : Prop :=
  ∀ r ∈ suites, ∀ log ∈ r.2.logs,
    log.benchmark_id ∈ r.2.initialInput.map (fun b => b.uuid)

/-- Specification-side arithmetic mean of a sample list. -/
def arithMean (l : List ℚ) : ℚ := l.sum / l.length

/-- Erase the per-benchmark wall-clock field. -/
def scrubBench (b : BenchPayload) : BenchPayload := { b with updatedAt := "" }

/-- Erase the per-insight wall-clock field. -/
def scrubInsight (i : FailureInsight) : FailureInsight := { i with lastFailureAt := "" }

/-- Erase every wall-clock-derived field of a payload, leaving all aggregated
content. -/
def scrubPayload (p : SuitePayload) : SuitePayload :=
  { p with generatedAt := "",
           benchmarks := p.benchmarks.map scrubBench,
           failureInsights := p.failureInsights.map scrubInsight }

/-- The keys of an association list. -/
def alKeys {α : Type} (l : List (String × α)) : List String := l.map Prod.fst

theorem alGet_alSet_self {α : Type} (l : List (String × α)) (k : String) (v : α) :
    alGet (alSet l k v) k = some v := by
  induction l with
  | nil => simp [alSet, alGet]
  | cons h t ih =>
    obtain ⟨k', v'⟩ := h
    by_cases hk : k' = k
    · simp [alSet, alGet, hk]
    · simp [alSet, alGet, hk, ih]

theorem alGet_alSet_ne {α : Type} (l : List (String × α)) (k k' : String) (v : α)
    (h : k' ≠ k) : alGet (alSet l k v) k' = alGet l k' := by
  induction l with
  | nil =>
    simp only [alSet, alGet]
    rw [if_neg (fun hh => h hh.symm)]
  | cons hd t ih =>
    obtain ⟨k₀, v₀⟩ := hd
    by_cases hk : k₀ = k
    · subst hk
      simp only [alSet, if_pos rfl, alGet]
      rw [if_neg (fun hh => h hh.symm), if_neg (fun hh => h hh.symm)]
    · simp only [alSet, if_neg hk, alGet]
      by_cases hk' : k₀ = k'
      · simp [hk']
      · simp [hk', ih]

theorem alGet_some_mem_keys {α : Type} (l : List (String × α)) (k : String) (v : α)
    (h : alGet l k = some v) : k ∈ alKeys l := by
  induction l with
  | nil => simp [alGet] at h
  | cons hd t ih =>
    obtain ⟨k₀, v₀⟩ := hd
    by_cases hk : k₀ = k
    · simp [alKeys, hk]
    · simp only [alGet, if_neg hk] at h
      simp [alKeys] at ih ⊢
      exact Or.inr (ih h)

theorem alGet_eq_of_mem {α : Type} (l : List (String × α)) (hnd : (alKeys l).Nodup)
    (p : String × α) (hp : p ∈ l) : alGet l p.1 = some p.2 := by
  induction l with
  | nil => simp at hp
  | cons hd t ih =>
    simp only [alKeys, List.map_cons, List.nodup_cons] at hnd
    rcases List.mem_cons.mp hp with h | h
    · subst h
      simp [alGet]
    · have hk : hd.1 ≠ p.1 := by
        intro he
        exact hnd.1 (he ▸ List.mem_map_of_mem Prod.fst h)
      simp only [alGet, if_neg hk]
      exact ih hnd.2 h

theorem usageStep_history (cfg : Config) (s : Stats) (a b c : PyVal) :
    (usageStep cfg s a b c).1.history = s.history := by
  simp only [usageStep]
  split
  · repeat' split
    all_goals rfl
  · rfl

theorem usageStep_flag (cfg : Config) (s : Stats) (a b c : PyVal) :
    (usageStep cfg s a b c).1.failure_flag = s.failure_flag := by
  simp only [usageStep]
  split
  · repeat' split
    all_goals rfl
  · rfl

theorem usageStep_latest (cfg : Config) (s : Stats) (a b c : PyVal) :
    (usageStep cfg s a b c).1.latest_failure = s.latest_failure := by
  simp only [usageStep]
  split
  · repeat' split
    all_goals rfl
  · rfl

theorem usageStep_seen (cfg : Config) (s : Stats) (a b c : PyVal)
    (h : pyMem a s.usage_call_ids = true) : usageStep cfg s a b c = (s, false, false) := by
  simp only [usageStep, h]
  simp

theorem estimateStep_history (cfg : Config) (s : Stats) (eo : PyDict) (ta ca : Bool) :
    (estimateStep cfg s eo ta ca).1.history = s.history := by
  simp only [estimateStep]
  split
  · repeat' split
    all_goals rfl
  · rfl

theorem estimateStep_flag (cfg : Config) (s : Stats) (eo : PyDict) (ta ca : Bool) :
    (estimateStep cfg s eo ta ca).1.failure_flag = s.failure_flag := by
  simp only [estimateStep]
  split
  · repeat' split
    all_goals rfl
  · rfl

theorem estimateStep_latest (cfg : Config) (s : Stats) (eo : PyDict) (ta ca : Bool) :
    (estimateStep cfg s eo ta ca).1.latest_failure = s.latest_failure := by
  simp only [estimateStep]
  split
  · repeat' split
    all_goals rfl
  · rfl

theorem estimateStep_call_ids (cfg : Config) (s : Stats) (eo : PyDict) (ta ca : Bool) :
    (estimateStep cfg s eo ta ca).1.usage_call_ids = s.usage_call_ids := by
  simp only [estimateStep]
  split
  · repeat' split
    all_goals rfl
  · rfl

theorem lastSample_concat (l : List ℚ) (x : ℚ) : lastSample (l ++ [x]) = x := by
  simp [lastSample]

theorem estimateStep_fresh (cfg : Config) (s : Stats) (eo : PyDict)
    (h : eo.isEmpty = false) :
    (estimateStep cfg s eo false false).1.token_counts
        = s.token_counts ++ [jsonTokenEstimate eo] ∧
    (estimateStep cfg s eo false false).1.costs
        = s.costs ++ [jsonTokenEstimate eo / 1000 * cfg.costPer1k] := by
  simp only [estimateStep, h, Bool.not_false, if_pos]
  have hne : (s.token_counts ++ [jsonTokenEstimate eo]).isEmpty = false := by
    simp
  simp only [Bool.not_false, Bool.true_and, hne, if_pos, lastSample_concat]
  split <;> exact ⟨rfl, rfl⟩

theorem estimateStep_empty (cfg : Config) (s : Stats) (eo : PyDict) (ta ca : Bool)
    (h : eo.isEmpty = true) : estimateStep cfg s eo ta ca = (s, ta, ca) := by
  simp [estimateStep, h]

theorem failureStep_history (s : Stats) (succ : Bool) (m objName g a : PyVal) :
    (failureStep s succ m objName g a).1.history = s.history := by
  simp only [failureStep]
  split <;> rfl

theorem failureStep_flag (s : Stats) (succ : Bool) (m objName g a : PyVal) :
    (failureStep s succ m objName g a).1.failure_flag = (s.failure_flag || !succ) := by
  simp only [failureStep]
  cases succ <;> simp

theorem failureStep_snd (s : Stats) (succ : Bool) (m objName g a : PyVal) :
    (failureStep s succ m objName g a).2
      = if succ then Option.none else some (classifyFailure a) := by
  simp only [failureStep]
  cases succ <;> simp

theorem failureStep_latest_fail (s : Stats) (m objName g a : PyVal) :
    (failureStep s false m objName g a).1.latest_failure = some
      { objective := objName,
        reason := if pyTruthy m then m
          else .str (match g with
            | .none => "Objective failed"
            | g' => "Expected " ++ pyStr g' ++ ", got " ++ pyStr a),
        category := classifyFailure a, expected := g, actual := a } := by
  simp only [failureStep]
  simp

theorem failureStep_token_counts (s : Stats) (succ : Bool) (m objName g a : PyVal) :
    (failureStep s succ m objName g a).1.token_counts = s.token_counts := by
  simp only [failureStep]
  split <;> rfl

theorem failureStep_costs (s : Stats) (succ : Bool) (m objName g a : PyVal) :
    (failureStep s succ m objName g a).1.costs = s.costs := by
  simp only [failureStep]
  split <;> rfl

theorem failureStep_call_ids (s : Stats) (succ : Bool) (m objName g a : PyVal) :
    (failureStep s succ m objName g a).1.usage_call_ids = s.usage_call_ids := by
  simp only [failureStep]
  split <;> rfl

theorem foldEntry_flag (cfg : Config) (objName ok g : PyVal) (lat : ℚ) (s : Stats)
    (e : EntryRec) :
    (foldEntry cfg objName ok g lat s e).failure_flag
      = (s.failure_flag || !pyTruthy e.eval_result.result) := by
  simp only [foldEntry]
  rw [failureStep_flag, estimateStep_flag, usageStep_flag]

theorem foldEntry_history (cfg : Config) (objName ok g : PyVal) (lat : ℚ) (s : Stats)
    (e : EntryRec) :
    (foldEntry cfg objName ok g lat s e).history = s.history ++
      [{ timestamp := e.timestamp.map isoFormat, objective := objName,
         result := pyTruthy e.eval_result.result, message := e.eval_result.message,
         expected := g, actual := actualValue ok e.evaluated_output,
         failureCategory :=
           if pyTruthy e.eval_result.result then Option.none
           else some (classifyFailure (actualValue ok e.evaluated_output)),
         latencySeconds := lat }] := by
  simp only [foldEntry]
  rw [failureStep_history, estimateStep_history, usageStep_history, failureStep_snd]

theorem foldEntry_latest_fail (cfg : Config) (objName ok g : PyVal) (lat : ℚ) (s : Stats)
    (e : EntryRec) (h : pyTruthy e.eval_result.result = false) :
    (foldEntry cfg objName ok g lat s e).latest_failure = some
      { objective := objName,
        reason :=
          if pyTruthy e.eval_result.message then e.eval_result.message
          else .str (match g with
            | .none => "Objective failed"
            | g' => "Expected " ++ pyStr g' ++ ", got "
                ++ pyStr (actualValue ok e.evaluated_output)),
        category := classifyFailure (actualValue ok e.evaluated_output),
        expected := g, actual := actualValue ok e.evaluated_output } := by
  simp only [foldEntry, h]
  rw [failureStep_latest_fail]

theorem foldEntries_flag (cfg : Config) (objName ok g : PyVal) (lat : ℚ) :
    ∀ (es : List EntryRec) (s : Stats),
      (es.foldl (foldEntry cfg objName ok g lat) s).failure_flag
        = (s.failure_flag || es.any (fun e => !pyTruthy e.eval_result.result))
  | [], s => by simp
  | e :: t, s => by
    simp only [List.foldl_cons, List.any_cons]
    rw [foldEntries_flag cfg objName ok g lat t _, foldEntry_flag, Bool.or_assoc]

theorem foldEntries_history_len (cfg : Config) (objName ok g : PyVal) (lat : ℚ) :
    ∀ (es : List EntryRec) (s : Stats),
      (es.foldl (foldEntry cfg objName ok g lat) s).history.length
        = s.history.length + es.length
  | [], s => by simp
  | e :: t, s => by
    simp only [List.foldl_cons, List.length_cons]
    rw [foldEntries_history_len cfg objName ok g lat t _, foldEntry_history]
    simp
    omega

theorem foldLog_flag (cfg : Config) (s : Stats) (log : LogRec) :
    (foldLog cfg s log).failure_flag = (s.failure_flag || logHasFailure log) := by
  simp only [foldLog, logHasFailure]
  by_cases h : log.entries.isEmpty
  · simp [h]
  · simp only [h, if_neg, Bool.false_eq_true, not_false_iff, Bool.false_or]
    rw [foldEntries_flag]

theorem foldLog_history_len (cfg : Config) (s : Stats) (log : LogRec) :
    (foldLog cfg s log).history.length
      = s.history.length + (if log.entries.isEmpty then 1 else log.entries.length) := by
  simp only [foldLog]
  by_cases h : log.entries.isEmpty
  · simp [h]
  · simp only [h, if_neg, Bool.false_eq_true, not_false_iff]
    rw [foldEntries_history_len]

theorem foldLogs_flag (cfg : Config) :
    ∀ (logs : List LogRec) (s : Stats),
      (logs.foldl (foldLog cfg) s).failure_flag = (s.failure_flag || logs.any logHasFailure)
  | [], s => by simp
  | log :: t, s => by
    simp only [List.foldl_cons, List.any_cons]
    rw [foldLogs_flag cfg t _, foldLog_flag, Bool.or_assoc]

theorem foldLogs_history_len (cfg : Config) :
    ∀ (logs : List LogRec) (s : Stats),
      (logs.foldl (foldLog cfg) s).history.length
        = s.history.length
          + (logs.map (fun log => if log.entries.isEmpty then 1 else log.entries.length)).sum
  | [], s => by simp
  | log :: t, s => by
    simp only [List.foldl_cons, List.map_cons, List.sum_cons]
    rw [foldLogs_history_len cfg t _, foldLog_history_len]
    omega

theorem regPhase_cons (sn : String) (agg : List (String × Stats)) (b : BenchmarkDef)
    (t : List BenchmarkDef) :
    regPhase sn agg (b :: t) = regPhase sn (alSet agg b.uuid (initStats sn b)) t := rfl

theorem logPhase_cons (cfg : Config) (agg : List (String × Stats)) (log : LogRec)
    (t : List LogRec) :
    logPhase cfg agg (log :: t) = logPhase cfg (logStep cfg agg log) t := rfl

theorem regPhase_not_mem (sn : String) :
    ∀ (bs : List BenchmarkDef) (agg : List (String × Stats)) (u : String),
      u ∉ bs.map (fun b => b.uuid) → alGet (regPhase sn agg bs) u = alGet agg u
  | [], _, _, _ => rfl
  | b :: t, agg, u, h => by
    simp only [List.map_cons, List.mem_cons, not_or] at h
    rw [regPhase_cons, regPhase_not_mem sn t _ u h.2, alGet_alSet_ne _ _ _ _ h.1]

theorem regPhase_mem (sn : String) :
    ∀ (bs : List BenchmarkDef) (agg : List (String × Stats)) (b : BenchmarkDef),
      (bs.map (fun x => x.uuid)).Nodup → b ∈ bs →
      alGet (regPhase sn agg bs) b.uuid = some (initStats sn b)
  | [], _, b, _, hb => absurd hb (List.not_mem_nil b)
  | b' :: t, agg, b, hnd, hb => by
    simp only [List.map_cons, List.nodup_cons] at hnd
    rw [regPhase_cons]
    rcases List.mem_cons.mp hb with he | ht
    · subst he
      rw [regPhase_not_mem sn t _ _ hnd.1, alGet_alSet_self]
    · exact regPhase_mem sn t _ b hnd.2 ht

theorem logStep_ne (cfg : Config) (agg : List (String × Stats)) (log : LogRec) (u : String)
    (h : log.benchmark_id ≠ u) : alGet (logStep cfg agg log) u = alGet agg u := by
  simp only [logStep]
  cases hg : alGet agg log.benchmark_id with
  | none => rfl
  | some s => rw [alGet_alSet_ne _ _ _ _ (fun hh => h hh.symm)]

theorem logPhase_ne (cfg : Config) :
    ∀ (logs : List LogRec) (agg : List (String × Stats)) (u : String),
      (∀ log ∈ logs, log.benchmark_id ≠ u) → alGet (logPhase cfg agg logs) u = alGet agg u
  | [], _, _, _ => rfl
  | log :: t, agg, u, h => by
    rw [logPhase_cons,
      logPhase_ne cfg t _ u (fun l hl => h l (List.mem_cons_of_mem _ hl)),
      logStep_ne cfg agg log u (h log (List.mem_cons_self _ _))]

theorem logPhase_some (cfg : Config) :
    ∀ (logs : List LogRec) (agg : List (String × Stats)) (u : String) (s : Stats),
      alGet agg u = some s →
      alGet (logPhase cfg agg logs) u
        = some ((logs.filter (fun log => log.benchmark_id = u)).foldl (foldLog cfg) s)
  | [], agg, u, s, h => by simpa [logPhase]
  | log :: t, agg, u, s, h => by
    rw [logPhase_cons]
    by_cases hid : log.benchmark_id = u
    · have hstep : logStep cfg agg log = alSet agg u (foldLog cfg s log) := by
        simp [logStep, hid, h]
      rw [hstep, List.filter_cons_of_pos (by simp [hid]), List.foldl_cons]
      exact logPhase_some cfg t _ u (foldLog cfg s log) (alGet_alSet_self _ _ _)
    · rw [List.filter_cons_of_neg (by simp [hid])]
      have hpres : alGet (logStep cfg agg log) u = some s := by
        rw [logStep_ne cfg agg log u hid]; exact h
      exact logPhase_some cfg t _ u s hpres

theorem markerStep_preserve (cfg : Config) (r : SuiteRun) (agg : List (String × Stats))
    (u : String) (hu : u ∉ r.2.initialInput.map (fun b => b.uuid))
    (hlogs : ∀ log ∈ r.2.logs, log.benchmark_id ∈ r.2.initialInput.map (fun b => b.uuid)) :
    alGet (markerStep cfg agg r) u = alGet agg u := by
  simp only [markerStep]
  rw [logPhase_ne cfg _ _ _ (fun log hl he => hu (by rw [← he]; exact hlogs log hl)),
    regPhase_not_mem _ _ _ _ hu]

theorem suitesFold_preserve (cfg : Config) :
    ∀ (ss : List SuiteRun) (agg : List (String × Stats)) (u : String),
      u ∉ allUuids ss → ownMarker ss →
      alGet (ss.foldl (markerStep cfg) agg) u = alGet agg u
  | [], _, _, _, _ => rfl
  | r :: t, agg, u, hu, hown => by
    simp only [allUuids, List.mem_append, not_or] at hu
    rw [List.foldl_cons,
      suitesFold_preserve cfg t _ u hu.2 (fun r' hr' => hown r' (List.mem_cons_of_mem _ hr')),
      markerStep_preserve cfg r agg u hu.1 (hown r (List.mem_cons_self _ _))]

theorem suitesFold_lookup (cfg : Config) :
    ∀ (ss : List SuiteRun) (agg : List (String × Stats)),
      (allUuids ss).Nodup → ownMarker ss →
      ∀ r ∈ ss, ∀ b ∈ r.2.initialInput,
        alGet (ss.foldl (markerStep cfg) agg) b.uuid
          = some ((logsFor r.2 b.uuid).foldl (foldLog cfg) (initStats r.1 b))
  | [], _, _, _, r, hr, _, _ => absurd hr (List.not_mem_nil r)
  | r0 :: t, agg, hnd, hown, r, hr, b, hb => by
    simp only [allUuids] at hnd
    have hnd' := List.nodup_append.mp hnd
    have hown' : ownMarker t := fun r' hr' => hown r' (List.mem_cons_of_mem _ hr')
    rw [List.foldl_cons]
    rcases List.mem_cons.mp hr with he | ht
    · subst he
      have hmem : b.uuid ∈ r.2.initialInput.map (fun x => x.uuid) :=
        List.mem_map_of_mem _ hb
      rw [suitesFold_preserve cfg t _ _ (hnd'.2.2 hmem) hown']
      simp only [markerStep]
      rw [logPhase_some cfg _ _ _ _ (regPhase_mem _ _ _ _ hnd'.1 hb)]
      rfl
    · exact suitesFold_lookup cfg t _ hnd'.2.1 hown' r ht b hb

theorem computeResults_benchmark (cfg : Config) (suites : List SuiteRun)
    (hnd : (allUuids suites).Nodup) (hown : ownMarker suites) :
    ∀ r ∈ suites, ∀ b ∈ r.2.initialInput,
      alGet (computeResults cfg suites) b.uuid
        = some ((logsFor r.2 b.uuid).foldl (foldLog cfg) (initStats r.1 b)) :=
  fun r hr b hb => suitesFold_lookup cfg suites [] hnd hown r hr b hb

theorem alKeys_alSet_sub {α : Type} :
    ∀ (l : List (String × α)) (k : String) (v : α) (x : String),
      x ∈ alKeys (alSet l k v) → x ∈ alKeys l ∨ x = k
  | [], k, v, x, h => by
    simp [alKeys, alSet] at h
    exact Or.inr h
  | (k₀, v₀) :: t, k, v, x, h => by
    by_cases hk : k₀ = k
    · simp only [alSet, if_pos hk, alKeys, List.map_cons, List.mem_cons] at h ⊢
      exact Or.inl h
    · simp only [alSet, if_neg hk, alKeys, List.map_cons, List.mem_cons] at h ⊢
      rcases h with h | h
      · exact Or.inl (Or.inl h)
      · rcases alKeys_alSet_sub t k v x h with h' | h'
        · exact Or.inl (Or.inr h')
        · exact Or.inr h'

theorem alKeys_alSet_mem {α : Type} :
    ∀ (l : List (String × α)) (k : String) (v : α),
      k ∈ alKeys l → alKeys (alSet l k v) = alKeys l
  | [], k, v, h => by simp [alKeys] at h
  | (k₀, v₀) :: t, k, v, h => by
    by_cases hk : k₀ = k
    · simp [alSet, if_pos hk, alKeys]
    · simp only [alKeys, List.map_cons, List.mem_cons] at h
      rcases h with h | h
      · exact absurd h.symm hk
      · simp only [alSet, if_neg hk, alKeys, List.map_cons]
        rw [show List.map Prod.fst (alSet t k v) = alKeys (alSet t k v) from rfl,
          alKeys_alSet_mem t k v h]
        rfl

theorem alKeys_alSet_nodup {α : Type} :
    ∀ (l : List (String × α)) (k : String) (v : α),
      (alKeys l).Nodup → (alKeys (alSet l k v)).Nodup
  | [], k, v, _ => by simp [alKeys, alSet]
  | (k₀, v₀) :: t, k, v, h => by
    simp only [alKeys, List.map_cons, List.nodup_cons] at h
    by_cases hk : k₀ = k
    · simp only [alSet, if_pos hk, alKeys, List.map_cons, List.nodup_cons]
      exact h
    · simp only [alSet, if_neg hk, alKeys, List.map_cons, List.nodup_cons]
      refine ⟨fun hmem => ?_, alKeys_alSet_nodup t k v h.2⟩
      rcases alKeys_alSet_sub t k v k₀ hmem with h' | h'
      · exact h.1 h'
      · exact hk h'

theorem logStep_keys (cfg : Config) (agg : List (String × Stats)) (log : LogRec) :
    alKeys (logStep cfg agg log) = alKeys agg := by
  simp only [logStep]
  cases hg : alGet agg log.benchmark_id with
  | none => rfl
  | some s => exact alKeys_alSet_mem _ _ _ (alGet_some_mem_keys _ _ _ hg)

theorem logPhase_keys (cfg : Config) :
    ∀ (logs : List LogRec) (agg : List (String × Stats)),
      alKeys (logPhase cfg agg logs) = alKeys agg
  | [], _ => rfl
  | log :: t, agg => by
    rw [logPhase_cons, logPhase_keys cfg t _, logStep_keys]

theorem regPhase_keys_sub (sn : String) :
    ∀ (bs : List BenchmarkDef) (agg : List (String × Stats)) (x : String),
      x ∈ alKeys (regPhase sn agg bs) →
      x ∈ alKeys agg ∨ x ∈ bs.map (fun b => b.uuid)
  | [], _, x, h => Or.inl h
  | b :: t, agg, x, h => by
    rw [regPhase_cons] at h
    rcases regPhase_keys_sub sn t _ x h with h' | h'
    · rcases alKeys_alSet_sub _ _ _ _ h' with h'' | h''
      · exact Or.inl h''
      · exact Or.inr (by simp [h''])
    · exact Or.inr (List.mem_cons_of_mem _ h')

theorem regPhase_keys_nodup (sn : String) :
    ∀ (bs : List BenchmarkDef) (agg : List (String × Stats)),
      (alKeys agg).Nodup → (alKeys (regPhase sn agg bs)).Nodup
  | [], _, h => h
  | b :: t, agg, h => by
    rw [regPhase_cons]
    exact regPhase_keys_nodup sn t _ (alKeys_alSet_nodup _ _ _ h)

theorem markerStep_keys_nodup (cfg : Config) (agg : List (String × Stats)) (r : SuiteRun)
    (h : (alKeys agg).Nodup) : (alKeys (markerStep cfg agg r)).Nodup := by
  simp only [markerStep]
  rw [logPhase_keys]
  exact regPhase_keys_nodup _ _ _ h

theorem suitesFold_keys_nodup (cfg : Config) :
    ∀ (ss : List SuiteRun) (agg : List (String × Stats)),
      (alKeys agg).Nodup → (alKeys (ss.foldl (markerStep cfg) agg)).Nodup
  | [], _, h => h
  | r :: t, agg, h => by
    rw [List.foldl_cons]
    exact suitesFold_keys_nodup cfg t _ (markerStep_keys_nodup cfg agg r h)

theorem suitesFold_keys_sub (cfg : Config) :
    ∀ (ss : List SuiteRun) (agg : List (String × Stats)) (x : String),
      x ∈ alKeys (ss.foldl (markerStep cfg) agg) → x ∈ alKeys agg ∨ x ∈ allUuids ss
  | [], _, _, h => Or.inl h
  | r :: t, agg, x, h => by
    rw [List.foldl_cons] at h
    rcases suitesFold_keys_sub cfg t _ x h with h' | h'
    · simp only [markerStep] at h'
      rw [logPhase_keys] at h'
      rcases regPhase_keys_sub _ _ _ _ h' with h'' | h''
      · exact Or.inl h''
      · exact Or.inr (by simp [allUuids, h''])
    · exact Or.inr (by simp [allUuids, h'])

theorem mem_allUuids :
    ∀ (ss : List SuiteRun) (u : String), u ∈ allUuids ss →
      ∃ r ∈ ss, ∃ b ∈ r.2.initialInput, b.uuid = u
  | [], u, h => by simp [allUuids] at h
  | r :: t, u, h => by
    simp only [allUuids, List.mem_append] at h
    rcases h with h | h
    · obtain ⟨b, hb, hbu⟩ := List.mem_map.mp h
      exact ⟨r, List.mem_cons_self _ _, b, hb, hbu⟩
    · obtain ⟨r', hr', b, hb, hbu⟩ := mem_allUuids t u h
      exact ⟨r', List.mem_cons_of_mem _ hr', b, hb, hbu⟩

theorem uuid_mem_allUuids :
    ∀ (ss : List SuiteRun) (r : SuiteRun), r ∈ ss →
      ∀ b ∈ r.2.initialInput, b.uuid ∈ allUuids ss
  | [], r, hr, _, _ => absurd hr (List.not_mem_nil r)
  | r0 :: t, r, hr, b, hb => by
    simp only [allUuids, List.mem_append]
    rcases List.mem_cons.mp hr with he | ht
    · subst he
      exact Or.inl (List.mem_map_of_mem _ hb)
    · exact Or.inr (uuid_mem_allUuids t r ht b hb)

theorem computeResults_mem (cfg : Config) (suites : List SuiteRun)
    (hnd : (allUuids suites).Nodup) (hown : ownMarker suites) :
    ∀ p ∈ computeResults cfg suites,
      ∃ r ∈ suites, ∃ b ∈ r.2.initialInput, b.uuid = p.1 ∧
        p.2 = (logsFor r.2 p.1).foldl (foldLog cfg) (initStats r.1 b) := by
  intro p hp
  have hkeysnd : (alKeys (computeResults cfg suites)).Nodup :=
    suitesFold_keys_nodup cfg suites [] (by simp [alKeys])
  have hget : alGet (computeResults cfg suites) p.1 = some p.2 :=
    alGet_eq_of_mem _ hkeysnd p hp
  have hkey : p.1 ∈ alKeys (computeResults cfg suites) :=
    alGet_some_mem_keys _ _ _ hget
  rcases suitesFold_keys_sub cfg suites [] p.1 hkey with h | h
  · simp [alKeys] at h
  · obtain ⟨r, hr, b, hb, hbu⟩ := mem_allUuids suites p.1 h
    refine ⟨r, hr, b, hb, hbu, ?_⟩
    have hlook := computeResults_benchmark cfg suites hnd hown r hr b hb
    rw [hbu, hget] at hlook
    exact Option.some.inj hlook

theorem registration_unique :
    ∀ (ss : List SuiteRun), (allUuids ss).Nodup →
      ∀ r ∈ ss, ∀ r' ∈ ss, ∀ b ∈ r.2.initialInput, ∀ b' ∈ r'.2.initialInput,
        b.uuid = b'.uuid → r = r' ∧ b = b'
  | [], _, r, hr, _, _, _, _, _, _, _ => absurd hr (List.not_mem_nil r)
  | r0 :: t, hnd, r, hr, r', hr', b, hb, b', hb', he => by
    simp only [allUuids] at hnd
    have hnd' := List.nodup_append.mp hnd
    rcases List.mem_cons.mp hr with h1 | h1 <;> rcases List.mem_cons.mp hr' with h2 | h2
    · subst h1; subst h2
      exact ⟨rfl, List.inj_on_of_nodup_map hnd'.1 hb hb' he⟩
    · subst h1
      exact absurd (uuid_mem_allUuids t r' h2 b' hb')
        (fun hm => hnd'.2.2 (List.mem_map_of_mem _ hb) (he ▸ hm))
    · subst h2
      exact absurd (uuid_mem_allUuids t r h1 b hb)
        (fun hm => hnd'.2.2 (List.mem_map_of_mem _ hb') (he ▸ hm))
    · obtain ⟨hrr, hbb⟩ := registration_unique t hnd'.2.1 r h1 r' h2 b hb b' hb' he
      exact ⟨hrr, hbb⟩

/-- A demo configuration: the default cost rate of 0.003 USD per 1000 tokens
and no budget. -/
def demoCfg : Config := { costPer1k := 3 / 1000, budget := 0 }

/-- A demo benchmark definition. -/
def demoBench : BenchmarkDef :=
  { uuid := "b1", name := "Bench", iterations := 1, input_kwargs := [] }

/-- A demo evaluated output carrying a call identity and a usage block. -/
def sharedCallOutput : PyDict :=
  [("call_id", .str "c1"),
   ("usage", .dict [("total_tokens", .int 100)]),
   ("status", .str "success")]

/-- A passing evaluation entry over the shared-call output. -/
def sharedCallEntry : EntryRec :=
  { eval_result := { result := .bool true, message := .none },
    evaluated_output := sharedCallOutput, timestamp := some 0 }

/-- A log whose two entries reference the same call identity (two objectives
evaluating the same agent invocation). -/
def sharedCallLog : LogRec :=
  { benchmark_id := "b1", time_started := some 0, time_ended := some 1,
    metadata := [("objective_name", .str "o1"),
                 ("objective_output_key", .str "status"),
                 ("objective_goal", .str "success")],
    entries := [sharedCallEntry, sharedCallEntry] }

/-- A one-benchmark suite run whose single log folds two entries that share a
call identity. -/
def sharedCallSuites : List SuiteRun :=
  [("demo", { initialInput := [demoBench], logs := [sharedCallLog] })]

/-- C1 counterexample: with two log entries referencing the same call
identity (`"c1"`, 100 usage tokens), `compute_results` records two token
samples and two cost samples for the benchmark — the entry with the
already-seen call id still contributes a serialized-length token estimate and
a derived cost sample, so the claim's "exactly once" fails. -/
theorem dedup_estimate_counterexample :
    (alGet (computeResults demoCfg sharedCallSuites) "b1").map
      (fun s => (s.token_counts.length, s.costs.length)) = some (2, 2) := by
  rfl

/-- C1 (amended): an entry whose call identity was already seen adds nothing
to the seen-call set and contributes no usage-derived samples, but when its
evaluated output is non-empty it still contributes exactly one
JSON-length-estimate token sample and one cost sample derived from that
estimate; with an empty evaluated output it contributes no samples at all. -/
theorem usage_dedup_amended (cfg : Config) (objName ok g : PyVal) (lat : ℚ) (s : Stats)
    (e : EntryRec)
    (h1 : pyMem (pyGet e.evaluated_output "call_id") s.usage_call_ids = true) :
    ((foldEntry cfg objName ok g lat s e).usage_call_ids = s.usage_call_ids) ∧
    (e.evaluated_output.isEmpty = false →
      (foldEntry cfg objName ok g lat s e).token_counts
        = s.token_counts ++ [jsonTokenEstimate e.evaluated_output] ∧
      (foldEntry cfg objName ok g lat s e).costs
        = s.costs ++ [jsonTokenEstimate e.evaluated_output / 1000 * cfg.costPer1k]) ∧
    (e.evaluated_output.isEmpty = true →
      (foldEntry cfg objName ok g lat s e).token_counts = s.token_counts ∧
      (foldEntry cfg objName ok g lat s e).costs = s.costs) := by
  have hu : usageStep cfg s (pyGet e.evaluated_output "call_id")
      (pyGet e.evaluated_output "usage") (pyGet e.evaluated_output "cost_usd")
      = (s, false, false) := usageStep_seen cfg s _ _ _ h1
  refine ⟨?_, ?_, ?_⟩
  · simp only [foldEntry, hu]
    rw [failureStep_call_ids, estimateStep_call_ids]
  · intro heo
    obtain ⟨ht, hc⟩ := estimateStep_fresh cfg s e.evaluated_output heo
    constructor
    · simp only [foldEntry, hu]
      rw [failureStep_token_counts, ht]
    · simp only [foldEntry, hu]
      rw [failureStep_costs, hc]
  · intro heo
    have he := estimateStep_empty cfg s e.evaluated_output false false heo
    constructor
    · simp only [foldEntry, hu, he]
      rw [failureStep_token_counts]
    · simp only [foldEntry, hu, he]
      rw [failureStep_costs]

/-- An accumulator that has already seen call id `"c1"`. -/
def seenStats : Stats :=
  { initStats "demo" demoBench with usage_call_ids := [.str "c1"] }

/-- C1 (amended) witness: the hypothesis and conclusion hold at the shared
call entry folded into a state that has already seen call id `"c1"`. -/
theorem usage_dedup_amended_witness :
    (pyMem (pyGet sharedCallEntry.evaluated_output "call_id")
        seenStats.usage_call_ids = true) ∧
    (((foldEntry demoCfg (.str "o1") (.str "status") (.str "success") 1 seenStats
        sharedCallEntry).usage_call_ids = seenStats.usage_call_ids) ∧
     (sharedCallEntry.evaluated_output.isEmpty = false →
        (foldEntry demoCfg (.str "o1") (.str "status") (.str "success") 1 seenStats
            sharedCallEntry).token_counts
          = seenStats.token_counts ++ [jsonTokenEstimate sharedCallEntry.evaluated_output] ∧
        (foldEntry demoCfg (.str "o1") (.str "status") (.str "success") 1 seenStats
            sharedCallEntry).costs
          = seenStats.costs
            ++ [jsonTokenEstimate sharedCallEntry.evaluated_output / 1000 * demoCfg.costPer1k]) ∧
     (sharedCallEntry.evaluated_output.isEmpty = true →
        (foldEntry demoCfg (.str "o1") (.str "status") (.str "success") 1 seenStats
            sharedCallEntry).token_counts = seenStats.token_counts ∧
        (foldEntry demoCfg (.str "o1") (.str "status") (.str "success") 1 seenStats
            sharedCallEntry).costs = seenStats.costs)) :=
  ⟨rfl, usage_dedup_amended demoCfg (.str "o1") (.str "status") (.str "success") 1
    seenStats sharedCallEntry rfl⟩

/-- C4: a log with no evaluation entries marks the benchmark failed and
appends exactly one synthetic history record — result `false`, failure
category `infrastructure`, the fixed message — and performs no token, cost or
confidence extraction. -/
theorem invocation_failure_synthetic (cfg : Config) (s : Stats) (log : LogRec)
    (h : log.entries = []) :
    (foldLog cfg s log =
      { s with latencies := s.latencies ++ [logLatency log],
               failure_flag := true,
               history := s.history ++ [syntheticRecord log
                 (pyGet log.metadata "objective_name")
                 (pyGet log.metadata "objective_goal") (logLatency log)] }) ∧
    (foldLog cfg s log).token_counts = s.token_counts ∧
    (foldLog cfg s log).costs = s.costs ∧
    (foldLog cfg s log).confidences = s.confidences ∧
    (foldLog cfg s log).usage_call_ids = s.usage_call_ids ∧
    (syntheticRecord log (pyGet log.metadata "objective_name")
        (pyGet log.metadata "objective_goal") (logLatency log)).result = false ∧
    (syntheticRecord log (pyGet log.metadata "objective_name")
        (pyGet log.metadata "objective_goal") (logLatency log)).failureCategory
      = some "infrastructure" ∧
    (syntheticRecord log (pyGet log.metadata "objective_name")
        (pyGet log.metadata "objective_goal") (logLatency log)).message
      = .str "No evaluator entries recorded" := by
  have hfold : foldLog cfg s log =
      { s with latencies := s.latencies ++ [logLatency log],
               failure_flag := true,
               history := s.history ++ [syntheticRecord log
                 (pyGet log.metadata "objective_name")
                 (pyGet log.metadata "objective_goal") (logLatency log)] } := by
    simp [foldLog, h]
  refine ⟨hfold, ?_, ?_, ?_, ?_, rfl, rfl, rfl⟩ <;> rw [hfold]

/-- C4 witness: the synthetic-record behaviour at a concrete entry-less log. -/
theorem invocation_failure_synthetic_witness :
    ({ benchmark_id := "b1", time_started := some 0, time_ended := some 2,
       metadata := [], entries := [] } : LogRec).entries = [] ∧
    (foldLog demoCfg (initStats "demo" demoBench)
        { benchmark_id := "b1", time_started := some 0, time_ended := some 2,
          metadata := [], entries := [] }).token_counts
      = (initStats "demo" demoBench).token_counts :=
  ⟨rfl, (invocation_failure_synthetic demoCfg (initStats "demo" demoBench)
    { benchmark_id := "b1", time_started := some 0, time_ended := some 2,
      metadata := [], entries := [] } rfl).2.1⟩

/-- C3: the failure category is a function of the actual evaluated value
alone — empty-like values yield `format`, known-bad literal strings yield
`unsupported` (case-insensitively, including `"not_found"`), everything else
`logic` — and a failing entry always records that category both in its
history record and in the latest-failure detail. -/
theorem failure_category_rules :
    (∀ v, isEmptyLike v = true → classifyFailure v = "format") ∧
    (∀ s : String,
      (strToLower s = "error" ∨ strToLower s = "unsupported" ∨ strToLower s = "not_found") →
      classifyFailure (.str s) = "unsupported") ∧
    (∀ v, isEmptyLike v = false →
      (∀ s, v = .str s →
        ¬(strToLower s = "error" ∨ strToLower s = "unsupported" ∨ strToLower s = "not_found")) →
      classifyFailure v = "logic") ∧
    (∀ (cfg : Config) (objName ok g : PyVal) (lat : ℚ) (st : Stats) (e : EntryRec),
      pyTruthy e.eval_result.result = false →
      ∃ fd, (foldEntry cfg objName ok g lat st e).latest_failure = some fd ∧
        fd.category = classifyFailure (actualValue ok e.evaluated_output) ∧
        ∃ rec, (foldEntry cfg objName ok g lat st e).history = st.history ++ [rec] ∧
          rec.failureCategory
            = some (classifyFailure (actualValue ok e.evaluated_output))) := by
  refine ⟨?_, ?_, ?_, ?_⟩
  · intro v hv
    simp [classifyFailure, hv]
  · intro s hs
    have hns : s ≠ "" := by
      intro he
      subst he
      rcases hs with h | h | h <;> exact absurd h (by decide)
    have hempty : isEmptyLike (.str s) = false := by
      simp [isEmptyLike, hns]
    simp only [classifyFailure, hempty, Bool.false_eq_true, if_false]
    rw [if_pos hs]
  · intro v hv hns
    cases v with
    | str s =>
      simp only [classifyFailure, hv, Bool.false_eq_true, if_false]
      rw [if_neg (hns s rfl)]
    | none => simp [isEmptyLike] at hv
    | bool b => simp [classifyFailure, hv]
    | int n => simp [classifyFailure, hv]
    | float q => simp [classifyFailure, hv]
    | list xs => simp [classifyFailure, hv]
    | dict kvs => simp [classifyFailure, hv]
  · intro cfg objName ok g lat st e h
    refine ⟨_, foldEntry_latest_fail cfg objName ok g lat st e h, rfl, _,
      foldEntry_history cfg objName ok g lat st e, ?_⟩
    simp [h]

/-- C3 witness: the rules instantiated — `"not_found"` classifies as
`unsupported`, and a concrete failing entry records that category. -/
theorem failure_category_rules_witness :
    classifyFailure (.str "not_found") = "unsupported" ∧
    (pyTruthy ({ result := .bool false, message := .none } : EvalResult).result = false) ∧
    (∃ fd, (foldEntry demoCfg (.str "o1") (.str "status") (.str "found") 0
        (initStats "demo" demoBench)
        { eval_result := { result := .bool false, message := .none },
          evaluated_output := [("status", .str "not_found")],
          timestamp := some 0 }).latest_failure = some fd ∧
      fd.category = classifyFailure (actualValue (.str "status")
        [("status", .str "not_found")]) ∧
      ∃ rec, (foldEntry demoCfg (.str "o1") (.str "status") (.str "found") 0
          (initStats "demo" demoBench)
          { eval_result := { result := .bool false, message := .none },
            evaluated_output := [("status", .str "not_found")],
            timestamp := some 0 }).history
        = (initStats "demo" demoBench).history ++ [rec] ∧
        rec.failureCategory = some (classifyFailure (actualValue (.str "status")
          [("status", .str "not_found")]))) :=
  ⟨failure_category_rules.2.1 "not_found" (by decide), rfl,
    failure_category_rules.2.2.2 demoCfg (.str "o1") (.str "status") (.str "found") 0
      (initStats "demo" demoBench)
      { eval_result := { result := .bool false, message := .none },
        evaluated_output := [("status", .str "not_found")], timestamp := some 0 } rfl⟩

/-- C10: a log record whose benchmark id matches no registered accumulator is
skipped entirely: the aggregated map is returned unchanged — no accumulator
is created and no existing accumulator is touched (and the step is a total
function, so no exception can arise). -/
theorem unknown_benchmark_skipped (cfg : Config) (agg : List (String × Stats))
    (log : LogRec) (h : alGet agg log.benchmark_id = Option.none) :
    logStep cfg agg log = agg := by
  simp [logStep, h]

/-- C5: `_record_usage_cost` with neither tokens nor an override returns
`None` and leaves the persisted tracker state untouched; in every other case
the cost is the override when supplied, else `total_tokens/1000` times the
configured rate, it is added to the running total, the event is prepended,
and the updated tracker is persisted — the returned snapshot reports exactly
the persisted totals. -/
theorem record_usage_cost_spec (cfg : Config) (file : Option SpendTracker)
    (now src det : String) :
    (recordUsageCost cfg file now src det Option.none Option.none
      = { file := file, snapshot := Option.none, warnings := [] }) ∧
    (∀ (tok cov : Option ℚ), (tok.isSome ∨ cov.isSome) →
      ∃ t', (recordUsageCost cfg file now src det tok cov).file = some t' ∧
        t'.total_spend_usd
          = (loadSpendTracker cfg file).total_spend_usd
            + (match cov, tok with
               | some c, _ => c
               | Option.none, t => t.getD 0 / 1000 * cfg.costPer1k) ∧
        t'.events.head? = some
          { timestamp := now, source := src, detail := det, tokens := tok,
            cost_usd := pyRound (match cov, tok with
               | some c, _ => c
               | Option.none, t => t.getD 0 / 1000 * cfg.costPer1k) 6 } ∧
        t'.remaining_budget_usd
          = (if cfg.budget > 0 then some (max (cfg.budget - t'.total_spend_usd) 0)
             else Option.none) ∧
        (recordUsageCost cfg file now src det tok cov).snapshot = some
          { cost_usd := pyRound (match cov, tok with
               | some c, _ => c
               | Option.none, t => t.getD 0 / 1000 * cfg.costPer1k) 6,
            total_spend_usd := pyRound t'.total_spend_usd 6,
            remaining_budget_usd := t'.remaining_budget_usd.map (fun r => pyRound r 6) }) := by
  constructor
  · rfl
  · intro tok cov h
    have hhead : ∀ (ev : SpendEvent) (l : List SpendEvent),
        (if (ev :: l).length > spendEventLimit then (ev :: l).take spendEventLimit
         else ev :: l).head? = some ev := by
      intro ev l
      by_cases hl : (ev :: l).length > spendEventLimit
      · rw [if_pos hl, show spendEventLimit = 199 + 1 from rfl, List.take_succ_cons]
        rfl
      · rw [if_neg hl]
        rfl
    cases cov with
    | some c => exact ⟨_, rfl, rfl, hhead _ _, rfl, rfl⟩
    | none =>
      cases tok with
      | some t => exact ⟨_, rfl, rfl, hhead _ _, rfl, rfl⟩
      | none => exact absurd h (by simp)

/-- C5 witness: the spec instantiated at 100 tokens with no override on a
missing tracker file. -/
theorem record_usage_cost_spec_witness :
    ((some (100 : ℚ)).isSome ∨ (Option.none : Option ℚ).isSome) ∧
    (∃ t', (recordUsageCost demoCfg Option.none "t" "s" "d"
        (some 100) Option.none).file = some t' ∧
      t'.total_spend_usd
        = (loadSpendTracker demoCfg Option.none).total_spend_usd
          + 100 / 1000 * demoCfg.costPer1k ∧
      t'.events.head? = some
        { timestamp := "t", source := "s", detail := "d", tokens := some 100,
          cost_usd := pyRound (100 / 1000 * demoCfg.costPer1k) 6 } ∧
      t'.remaining_budget_usd
        = (if demoCfg.budget > 0 then some (max (demoCfg.budget - t'.total_spend_usd) 0)
           else Option.none) ∧
      (recordUsageCost demoCfg Option.none "t" "s" "d" (some 100) Option.none).snapshot
        = some
          { cost_usd := pyRound (100 / 1000 * demoCfg.costPer1k) 6,
            total_spend_usd := pyRound t'.total_spend_usd 6,
            remaining_budget_usd := t'.remaining_budget_usd.map (fun r => pyRound r 6) }) :=
  ⟨Or.inl rfl,
    (record_usage_cost_spec demoCfg Option.none "t" "s" "d").2 (some 100) Option.none
      (Or.inl rfl)⟩

/-- A configuration with a one-dollar budget. -/
def budgetCfg : Config := { costPer1k := 3 / 1000, budget := 1 }

/-- C6 counterexample: with budget $1, a call taking the running total to
$0.90 emits the 80% warning, and the immediately following call (total
$0.91), still at a level whose threshold was already crossed, emits the very
same warning again instead of staying silent — the warning is not
once-per-crossing. -/
theorem budget_warning_counterexample :
    (recordUsageCost budgetCfg Option.none "t1" "s" "d" Option.none
        (some (9 / 10))).warnings = [.at80Percent] ∧
    (recordUsageCost budgetCfg
        (recordUsageCost budgetCfg Option.none "t1" "s" "d" Option.none
          (some (9 / 10))).file
        "t2" "s" "d" Option.none (some (1 / 100))).warnings = [.at80Percent] := by
  constructor
  · dsimp only [recordUsageCost, loadSpendTracker, storeSpendTracker, budgetCfg]
    rw [if_pos (by norm_num : (0 : ℚ) < 1),
      if_neg (by norm_num : ¬((0 : ℚ) + 9 / 10 ≥ 1)),
      if_pos (by norm_num : (0 : ℚ) + 9 / 10 ≥ 8 / 10 * 1)]
  · dsimp only [recordUsageCost, loadSpendTracker, storeSpendTracker, budgetCfg]
    rw [if_pos (by norm_num : (0 : ℚ) < 1),
      if_neg (by norm_num : ¬((0 : ℚ) + 9 / 10 + 1 / 100 ≥ 1)),
      if_pos (by norm_num : (0 : ℚ) + 9 / 10 + 1 / 100 ≥ 8 / 10 * 1)]

/-- C6 (amended): when a positive budget is configured, every call that
records a cost emits a warning determined solely by the new running total —
the budget-reached warning at or above the full budget, else the 80% warning
at or above 80% of it, else none — so repeated calls above an
already-crossed threshold emit the warning again on each call. -/
theorem budget_warning_amended (cfg : Config) (file : Option SpendTracker)
    (now src det : String) (tok cov : Option ℚ) (h : tok.isSome ∨ cov.isSome)
    (hb : 0 < cfg.budget) :
    ∃ t', (recordUsageCost cfg file now src det tok cov).file = some t' ∧
      (recordUsageCost cfg file now src det tok cov).warnings
        = (if t'.total_spend_usd ≥ cfg.budget then [.reachedBudget]
           else if t'.total_spend_usd ≥ 8 / 10 * cfg.budget then [.at80Percent]
           else []) := by
  cases cov with
  | some c =>
    refine ⟨_, rfl, ?_⟩
    dsimp only [recordUsageCost]
    rw [if_pos hb]
  | none =>
    cases tok with
    | some t =>
      refine ⟨_, rfl, ?_⟩
      dsimp only [recordUsageCost]
      rw [if_pos hb]
    | none => exact absurd h (by simp)

/-- C6 (amended) witness: instantiated at a concrete call crossing 80% of a
one-dollar budget. -/
theorem budget_warning_amended_witness :
    ((Option.none : Option ℚ).isSome ∨ (some ((9 : ℚ) / 10)).isSome) ∧
    0 < budgetCfg.budget ∧
    (∃ t', (recordUsageCost budgetCfg Option.none "t1" "s" "d" Option.none
        (some (9 / 10))).file = some t' ∧
      (recordUsageCost budgetCfg Option.none "t1" "s" "d" Option.none
          (some (9 / 10))).warnings
        = (if t'.total_spend_usd ≥ budgetCfg.budget then [.reachedBudget]
           else if t'.total_spend_usd ≥ 8 / 10 * budgetCfg.budget then [.at80Percent]
           else [])) :=
  ⟨Or.inr rfl, by norm_num [budgetCfg],
    budget_warning_amended budgetCfg Option.none "t1" "s" "d" Option.none
      (some (9 / 10)) (Or.inr rfl) (by norm_num [budgetCfg])⟩

theorem usageStep_iterations (cfg : Config) (s : Stats) (a b c : PyVal) :
    (usageStep cfg s a b c).1.iterations = s.iterations := by
  simp only [usageStep]
  split
  · repeat' split
    all_goals rfl
  · rfl

theorem estimateStep_iterations (cfg : Config) (s : Stats) (eo : PyDict) (ta ca : Bool) :
    (estimateStep cfg s eo ta ca).1.iterations = s.iterations := by
  simp only [estimateStep]
  split
  · repeat' split
    all_goals rfl
  · rfl

theorem failureStep_iterations (s : Stats) (succ : Bool) (m objName g a : PyVal) :
    (failureStep s succ m objName g a).1.iterations = s.iterations := by
  simp only [failureStep]
  split <;> rfl

theorem foldEntry_iterations (cfg : Config) (objName ok g : PyVal) (lat : ℚ) (s : Stats)
    (e : EntryRec) : (foldEntry cfg objName ok g lat s e).iterations = s.iterations := by
  simp only [foldEntry]
  rw [failureStep_iterations, estimateStep_iterations, usageStep_iterations]

theorem foldEntries_iterations (cfg : Config) (objName ok g : PyVal) (lat : ℚ) :
    ∀ (es : List EntryRec) (s : Stats),
      (es.foldl (foldEntry cfg objName ok g lat) s).iterations = s.iterations
  | [], _ => rfl
  | e :: t, s => by
    simp only [List.foldl_cons]
    rw [foldEntries_iterations cfg objName ok g lat t _, foldEntry_iterations]

theorem foldLog_iterations (cfg : Config) (s : Stats) (log : LogRec) :
    (foldLog cfg s log).iterations = s.iterations := by
  simp only [foldLog]
  by_cases h : log.entries.isEmpty
  · simp [h]
  · simp only [h, Bool.false_eq_true, if_false]
    rw [foldEntries_iterations]

theorem foldLogs_iterations (cfg : Config) :
    ∀ (logs : List LogRec) (s : Stats),
      (logs.foldl (foldLog cfg) s).iterations = s.iterations
  | [], _ => rfl
  | log :: t, s => by
    simp only [List.foldl_cons]
    rw [foldLogs_iterations cfg t _, foldLog_iterations]

theorem pyRound_zero (n : ℕ) : pyRound 0 n = 0 := by
  unfold pyRound roundHalfEven
  norm_num

theorem pyRound_one (n : ℕ) : pyRound 1 n = 1 := by
  have h10 : ((10 : ℚ)) ^ n = ((10 ^ n : ℤ) : ℚ) := by push_cast; ring
  unfold pyRound roundHalfEven
  rw [one_mul, h10, Int.floor_intCast]
  simp only [sub_self]
  rw [if_pos (by norm_num : (0 : ℚ) < 1 / 2), ← h10]
  exact div_self (ne_of_gt (by positivity))

/-- C2: every benchmark in the payload is all-or-nothing — its success rate
is exactly 0 with status `failed` or exactly 1 with status `success`, never
an intermediate value — and the `failed` status holds precisely when some log
folded into the benchmark recorded a failing entry or carried no evaluation
entries at all. -/
theorem benchmark_status_all_or_nothing (cfg : Config) (suites : List SuiteRun)
    (now : String) (spendFile : Option SpendTracker)
    (hnd : (allUuids suites).Nodup) (hown : ownMarker suites)
    (hiter : ∀ r ∈ suites, ∀ b ∈ r.2.initialInput, 0 < b.iterations) :
    ∀ p ∈ (buildApiPayload cfg suites now spendFile).benchmarks,
      ((p.status = "failed" ∧ p.successRate = 0) ∨
       (p.status = "success" ∧ p.successRate = 1)) ∧
      (p.status = "failed" ↔
        ∃ r ∈ suites, ∃ b ∈ r.2.initialInput, b.uuid = p.id ∧
          (logsFor r.2 p.id).any logHasFailure = true) := by
  intro p hp
  have hmap : (buildApiPayload cfg suites now spendFile).benchmarks
      = (computeResults cfg suites).map (fun q => mkBenchPayload cfg now q.1 q.2) := rfl
  rw [hmap] at hp
  obtain ⟨q, hq, hpq⟩ := List.mem_map.mp hp
  obtain ⟨r, hr, b, hb, hbu, hS⟩ := computeResults_mem cfg suites hnd hown q hq
  subst hpq
  have hid : (mkBenchPayload cfg now q.1 q.2).id = q.1 := rfl
  have hflag : q.2.failure_flag = (logsFor r.2 q.1).any logHasFailure := by
    rw [hS, foldLogs_flag]
    simp [initStats]
  have hiterq : q.2.iterations = b.iterations := by
    rw [hS, foldLogs_iterations]
    rfl
  have hpos : q.2.iterations ≠ 0 := by
    rw [hiterq]
    have := hiter r hr b hb
    omega
  have hstatus : (mkBenchPayload cfg now q.1 q.2).status
      = (if q.2.failure_flag then "failed" else "success") := rfl
  have hrate : (mkBenchPayload cfg now q.1 q.2).successRate
      = pyRound (if q.2.iterations ≠ 0 then
          (((if q.2.failure_flag then 0 else q.2.iterations : ℕ) : ℚ)
            / (q.2.iterations : ℚ))
          else 0) 2 := rfl
  cases hF : q.2.failure_flag with
  | true =>
    have hst : (mkBenchPayload cfg now q.1 q.2).status = "failed" := by
      rw [hstatus, hF, if_pos rfl]
    have hsr : (mkBenchPayload cfg now q.1 q.2).successRate = 0 := by
      rw [hrate, hF, if_pos hpos]
      norm_num [pyRound_zero]
    refine ⟨Or.inl ⟨hst, hsr⟩, ?_⟩
    constructor
    · intro _
      exact ⟨r, hr, b, hb, hbu.trans hid.symm, by rw [hid, ← hflag]; exact hF⟩
    · intro _
      exact hst
  | false =>
    have hst : (mkBenchPayload cfg now q.1 q.2).status = "success" := by
      rw [hstatus, hF]
      rfl
    have hsr : (mkBenchPayload cfg now q.1 q.2).successRate = 1 := by
      rw [hrate, hF, if_pos hpos]
      rw [if_neg (by simp)]
      rw [div_self (by exact_mod_cast hpos)]
      exact pyRound_one 2
    refine ⟨Or.inr ⟨hst, hsr⟩, ?_⟩
    constructor
    · intro hcontra
      rw [hst] at hcontra
      exact absurd hcontra (by decide)
    · rintro ⟨r', hr', b', hb', hbu', hany⟩
      obtain ⟨hrr, hbb⟩ := registration_unique suites hnd r hr r' hr' b hb b' hb'
        (hbu.trans (hbu'.trans hid).symm)
      rw [← hrr] at hany
      rw [hid, ← hflag, hF] at hany
      exact absurd hany (by decide)

/-- C2 witness: the all-or-nothing rule instantiated on the demo suite whose
single benchmark passes every entry. -/
theorem benchmark_status_all_or_nothing_witness :
    ((allUuids sharedCallSuites).Nodup ∧ ownMarker sharedCallSuites ∧
      (∀ r ∈ sharedCallSuites, ∀ b ∈ r.2.initialInput, 0 < b.iterations)) ∧
    (∀ p ∈ (buildApiPayload demoCfg sharedCallSuites "t" Option.none).benchmarks,
      ((p.status = "failed" ∧ p.successRate = 0) ∨
       (p.status = "success" ∧ p.successRate = 1)) ∧
      (p.status = "failed" ↔
        ∃ r ∈ sharedCallSuites, ∃ b ∈ r.2.initialInput, b.uuid = p.id ∧
          (logsFor r.2 p.id).any logHasFailure = true)) :=
  ⟨⟨by decide, by unfold ownMarker; decide, by decide⟩,
    benchmark_status_all_or_nothing demoCfg sharedCallSuites "t" Option.none
      (by decide) (by unfold ownMarker; decide) (by decide)⟩

/-- C8: the history of every registered benchmark accumulator contains one
record per evaluation entry of each matching log plus exactly one synthetic
record per matching log without entries — no folded record is dropped. -/
theorem history_complete (cfg : Config) (suites : List SuiteRun)
    (hnd : (allUuids suites).Nodup) (hown : ownMarker suites) :
    ∀ r ∈ suites, ∀ b ∈ r.2.initialInput,
      ∃ S, alGet (computeResults cfg suites) b.uuid = some S ∧
        S.history.length
          = ((logsFor r.2 b.uuid).map
              (fun log => if log.entries.isEmpty then 1 else log.entries.length)).sum := by
  intro r hr b hb
  refine ⟨_, computeResults_benchmark cfg suites hnd hown r hr b hb, ?_⟩
  rw [foldLogs_history_len]
  simp [initStats]

/-- C8 witness: on the demo suite, the single benchmark's history length is
the two entries of its one matching log. -/
theorem history_complete_witness :
    ((allUuids sharedCallSuites).Nodup ∧ ownMarker sharedCallSuites) ∧
    (∃ S, alGet (computeResults demoCfg sharedCallSuites) demoBench.uuid = some S ∧
      S.history.length
        = ((logsFor ({ initialInput := [demoBench], logs := [sharedCallLog] } : Marker)
              demoBench.uuid).map
            (fun log => if log.entries.isEmpty then 1 else log.entries.length)).sum) :=
  ⟨⟨by decide, by unfold ownMarker; decide⟩,
    history_complete demoCfg sharedCallSuites (by decide) (by unfold ownMarker; decide)
      ("demo", { initialInput := [demoBench], logs := [sharedCallLog] })
      (List.mem_singleton_self _) demoBench (List.mem_singleton_self _)⟩

/-- C7: the derived payload fields are guarded arithmetic means — rounded
means of the recorded samples, with 0 (or `null` for confidence) when no
samples exist, and with the tokens-derived estimate as the cost fallback —
so no division over an empty sample list ever occurs. -/
theorem derived_fields_guarded_means (cfg : Config) (suites : List SuiteRun)
    (now : String) (spendFile : Option SpendTracker) :
    ∀ p ∈ (buildApiPayload cfg suites now spendFile).benchmarks,
      ∃ S, (p.id, S) ∈ computeResults cfg suites ∧
        p.latencySeconds
          = pyRound (if S.latencies.isEmpty then 0 else arithMean S.latencies) 3 ∧
        p.tokensUsed
          = pyRound (if S.token_counts.isEmpty then 0 else arithMean S.token_counts) 2 ∧
        p.costUsd
          = pyRound (if S.costs.isEmpty then
                (if S.token_counts.isEmpty then 0 else arithMean S.token_counts)
                  / 1000 * cfg.costPer1k
              else arithMean S.costs) 6 ∧
        p.confidenceReported
          = (if S.confidences.isEmpty then Option.none
             else some (pyRound (arithMean S.confidences) 3)) := by
  intro p hp
  have hmap : (buildApiPayload cfg suites now spendFile).benchmarks
      = (computeResults cfg suites).map (fun q => mkBenchPayload cfg now q.1 q.2) := rfl
  rw [hmap] at hp
  obtain ⟨q, hq, hpq⟩ := List.mem_map.mp hp
  subst hpq
  refine ⟨q.2, hq, ?_, ?_, ?_, ?_⟩
  · show pyRound (if !q.2.latencies.isEmpty then
        q.2.latencies.sum / q.2.latencies.length else 0) 3 = _
    by_cases hl : q.2.latencies.isEmpty <;> simp [hl, arithMean]
  · show pyRound (if !q.2.token_counts.isEmpty then
        q.2.token_counts.sum / q.2.token_counts.length else 0) 2 = _
    by_cases hl : q.2.token_counts.isEmpty <;> simp [hl, arithMean]
  · show pyRound (if !q.2.costs.isEmpty then q.2.costs.sum / q.2.costs.length
        else (if !q.2.token_counts.isEmpty then
          q.2.token_counts.sum / q.2.token_counts.length else 0) / 1000 * cfg.costPer1k) 6
      = _
    by_cases hc : q.2.costs.isEmpty <;> by_cases hl : q.2.token_counts.isEmpty <;>
      simp [hc, hl, arithMean]
  · show (if !q.2.confidences.isEmpty then
        some (q.2.confidences.sum / q.2.confidences.length) else Option.none).map
          (fun c => pyRound c 3) = _
    by_cases hl : q.2.confidences.isEmpty <;> simp [hl, arithMean]

/-- C7 witness: instantiated at the demo suite's single payload benchmark. -/
theorem derived_fields_guarded_means_witness :
    ∃ p, p ∈ (buildApiPayload demoCfg sharedCallSuites "t" Option.none).benchmarks ∧
      ∃ S, (p.id, S) ∈ computeResults demoCfg sharedCallSuites ∧
        p.latencySeconds
          = pyRound (if S.latencies.isEmpty then 0 else arithMean S.latencies) 3 ∧
        p.tokensUsed
          = pyRound (if S.token_counts.isEmpty then 0 else arithMean S.token_counts) 2 ∧
        p.costUsd
          = pyRound (if S.costs.isEmpty then
                (if S.token_counts.isEmpty then 0 else arithMean S.token_counts)
                  / 1000 * demoCfg.costPer1k
              else arithMean S.costs) 6 ∧
        p.confidenceReported
          = (if S.confidences.isEmpty then Option.none
             else some (pyRound (arithMean S.confidences) 3)) := by
  obtain ⟨x, hx⟩ : ∃ x, (buildApiPayload demoCfg sharedCallSuites "t"
      Option.none).benchmarks = [x] := ⟨_, rfl⟩
  have hmem : x ∈ (buildApiPayload demoCfg sharedCallSuites "t" Option.none).benchmarks := by
    rw [hx]
    exact List.mem_singleton_self x
  exact ⟨x, hmem,
    derived_fields_guarded_means demoCfg sharedCallSuites "t" Option.none x hmem⟩

theorem summary_fold_aux (cfg : Config) (t1 t2 : String) :
    ∀ (l : List (String × Stats)) (acc : Summary),
      ((l.map (fun q => mkBenchPayload cfg t1 q.1 q.2)).foldl
        (fun s b =>
          { total := s.total + 1,
            success := s.success + (if b.status = "success" then 1 else 0),
            failed := s.failed + (if b.status = "failed" then 1 else 0),
            costUsd := s.costUsd + b.costUsd }) acc)
        = ((l.map (fun q => mkBenchPayload cfg t2 q.1 q.2)).foldl
          (fun s b =>
            { total := s.total + 1,
              success := s.success + (if b.status = "success" then 1 else 0),
              failed := s.failed + (if b.status = "failed" then 1 else 0),
              costUsd := s.costUsd + b.costUsd }) acc)
  | [], _ => rfl
  | q :: l, acc => by
    simp only [List.map_cons, List.foldl_cons]
    rw [summary_fold_aux cfg t1 t2 l _]
    exact rfl

theorem insights_fold_aux (cfg : Config) (t1 t2 : String) :
    ∀ (l : List (String × Stats)),
      (((l.map (fun q => mkBenchPayload cfg t1 q.1 q.2)).filter
          (fun b => b.status ≠ "success")).map (fun b => scrubInsight (mkInsight t1 b)))
        = (((l.map (fun q => mkBenchPayload cfg t2 q.1 q.2)).filter
          (fun b => b.status ≠ "success")).map (fun b => scrubInsight (mkInsight t2 b)))
  | [] => rfl
  | q :: l => by
    simp only [List.map_cons]
    by_cases hs : (mkBenchPayload cfg t1 q.1 q.2).status = "success"
    · have hs2 : (mkBenchPayload cfg t2 q.1 q.2).status = "success" := hs
      rw [List.filter_cons_of_neg (by simp [hs]), List.filter_cons_of_neg (by simp [hs2])]
      exact insights_fold_aux cfg t1 t2 l
    · have hs2 : ¬(mkBenchPayload cfg t2 q.1 q.2).status = "success" := hs
      rw [List.filter_cons_of_pos (by simp [hs]), List.filter_cons_of_pos (by simp [hs2])]
      simp only [List.map_cons]
      rw [insights_fold_aux cfg t1 t2 l]
      exact rfl

theorem recs_fold_aux (cfg : Config) (t1 t2 : String) :
    ∀ (l : List (String × Stats)),
      (((l.map (fun q => mkBenchPayload cfg t1 q.1 q.2)).filter
          (fun b => b.status ≠ "success")).map mkRemediation)
        = (((l.map (fun q => mkBenchPayload cfg t2 q.1 q.2)).filter
          (fun b => b.status ≠ "success")).map mkRemediation)
  | [] => rfl
  | q :: l => by
    simp only [List.map_cons]
    by_cases hs : (mkBenchPayload cfg t1 q.1 q.2).status = "success"
    · have hs2 : (mkBenchPayload cfg t2 q.1 q.2).status = "success" := hs
      rw [List.filter_cons_of_neg (by simp [hs]), List.filter_cons_of_neg (by simp [hs2])]
      exact recs_fold_aux cfg t1 t2 l
    · have hs2 : ¬(mkBenchPayload cfg t2 q.1 q.2).status = "success" := hs
      rw [List.filter_cons_of_pos (by simp [hs]), List.filter_cons_of_pos (by simp [hs2])]
      simp only [List.map_cons]
      rw [recs_fold_aux cfg t1 t2 l]
      exact rfl

/-- C9: the aggregation is deterministic and clock-independent — building the
payload over the same suite runs and the same persisted spend state at two
different wall-clock instants yields identical payloads once the wall-clock
fields (`generatedAt`, each benchmark's `updatedAt`, each insight's
`lastFailureAt`) are erased; in particular `compute_results` is a pure
function of its input. -/
theorem aggregation_clock_independent (cfg : Config) (suites : List SuiteRun)
    (spendFile : Option SpendTracker) (t1 t2 : String) :
    scrubPayload (buildApiPayload cfg suites t1 spendFile)
      = scrubPayload (buildApiPayload cfg suites t2 spendFile) := by
  simp only [buildApiPayload, scrubPayload]
  congr 1
  · exact summary_fold_aux cfg t1 t2 (computeResults cfg suites) _
  · rw [List.map_map, List.map_map]
    rfl
  · rw [List.map_map, List.map_map]
    exact insights_fold_aux cfg t1 t2 (computeResults cfg suites)
  · exact recs_fold_aux cfg t1 t2 (computeResults cfg suites)

/-- C10 witness: a log with an unregistered id leaves a concrete aggregated
map unchanged. -/
theorem unknown_benchmark_skipped_witness :
    alGet [("b1", initStats "demo" demoBench)]
      ({ sharedCallLog with benchmark_id := "zz" } : LogRec).benchmark_id
      = Option.none ∧
    logStep demoCfg [("b1", initStats "demo" demoBench)]
        { sharedCallLog with benchmark_id := "zz" }
      = [("b1", initStats "demo" demoBench)] :=
  ⟨rfl, unknown_benchmark_skipped demoCfg [("b1", initStats "demo" demoBench)]
    { sharedCallLog with benchmark_id := "zz" } rfl⟩

end OmniBar
